import Mathlib

/-!
# Verification of the ska-src-maltopuft-etl reconciling loader

A shallow embedding, in Lean 4, of the reconciling database loader of the
`ska-src-maltopuft-etl` repository, together with proofs about its
behaviour.  The embedded components are:

* the conflict-aware insert primitive
  (`src/ska_src_maltopuft_etl/core/insert.py`),
* the `DatabaseLoader` class
  (`src/ska_src_maltopuft_etl/database_loader/database_loader.py`),
* the row-by-row fallback loop `handler_insert_target`
  (`src/ska_src_maltopuft_etl/meertrap/load.py`),
* the `TargetDataFrameHandler` parent/child frame hierarchy
  (`src/ska_src_maltopuft_etl/target_handler/target_handler.py`),
* the `TargetInformation.unique_constraint` property
  (`src/ska_src_maltopuft_etl/core/target.py`).

Machine values that matter here are integer surrogate keys and database
identifiers; both are embedded as `Int` (Python integers are unbounded, and
the key columns hold 64-bit values far from overflow in every code path
under study).  Fallible operations are embedded with `Except`/`Option`.
The relational backend is embedded as an explicit table state (`Db`) and
the driver-level calls as functions on it.
-/

set_option autoImplicit false

namespace Maltopuft

/-! ## Attribute rows and the database state

A row of attributes, as produced by `df.to_dicts()` in the source, is a
mapping from column name to value; here an association list from column
names to integer values (the columns the loader logic inspects and rewrites
are the integer surrogate-key and identifier columns).
-/

/-- A row of attributes: column name to value, as `df.to_dicts()` yields. -/
abbrev AttrMap := List (String × Int)

/-- A database row: the generated primary key `id` plus its attributes
(the `sa.Row` objects of the source always expose `.id`). -/
structure DbRow where
  id : Int
  attrs : AttrMap
deriving DecidableEq, Repr

/-- The state of one target table: committed/staged rows in insertion order
and the next value of the id sequence. -/
structure Db where
  rows : List DbRow
  nextId : Int
deriving DecidableEq, Repr

/-- `db.count(target)` (called by `handler_insert_target`; the method itself
is not defined under `src`).  Modelled from the spec: the
"countOfRowsInTargetTable" used by the collision-swap formula, i.e. the
number of rows in the target table. -/
def Db.count (db : Db) : Int :=
  (db.rows.length : Int)

/-- The psycopg error classes distinguished by `insert_`
(`psycopgexc.UniqueViolation`, `psycopgexc.ForeignKeyViolation`, and any
other `IntegrityError` cause). -/
inductive IntegrityError where
  | uniqueViolation
  | foreignKeyViolation
  | otherIntegrityError
deriving DecidableEq, Repr

/-- The exceptions the load path raises: `DuplicateInsertError` and
`ForeignKeyError` from `core/exceptions.py`, and the plain `RuntimeError`
used for every unrecoverable failure. -/
inductive LoadError where
  | duplicateInsertError
  | foreignKeyError
  | runtimeError
deriving DecidableEq, Repr

/-- Static constraint information for one target table: the columns of its
declared unique constraint, and the engine-side checks abstracted as
predicates (whether a row's foreign keys reference existing rows, and
whether any remaining integrity check, e.g. NOT NULL, passes). -/
structure TableSpec where
  ucols : List String
  fkOk : AttrMap → Bool
  checkOk : AttrMap → Bool

/-! ## The engine-level insert

`conn.execute(sa.insert(model_class).returning(model_class.id,
sort_by_parameter_order=True), parameters=data)` asks the driver to insert
one row per parameter and to return the generated identifiers in parameter
order.  This is embedded as a sequential walk over the parameter rows:
each one is checked against the table's constraints and, if clean,
appended with the next identifier from the sequence.
-/

/-- A unique-constraint violation: some row already in the table agrees
with `attrs` on every column of the declared unique constraint. -/
def uviolates (ucols : List String) (db : Db) (attrs : AttrMap) : Bool :=
  db.rows.any (fun r => ucols.all (fun c => r.attrs.lookup c == attrs.lookup c))

/-- Append one row, consuming the next identifier of the sequence. -/
def dbInsertOne (db : Db) (attrs : AttrMap) : Int × Db :=
  (db.nextId, ⟨db.rows ++ [⟨db.nextId, attrs⟩], db.nextId + 1⟩)

/-- The integrity checks the engine runs for one parameter row. -/
def rowIntegrityError (t : TableSpec) (db : Db) (attrs : AttrMap) :
    Option IntegrityError :=
  if t.fkOk attrs = false then some .foreignKeyViolation
  else if uviolates t.ucols db attrs then some .uniqueViolation
  else if t.checkOk attrs = false then some .otherIntegrityError
  else none

/-- The bulk `INSERT ... RETURNING id` with `sort_by_parameter_order=True`,
followed by `fetchall()`: on success, one single-column result row per
parameter row, in parameter order; on an integrity failure, the
corresponding error. -/
def executeBulkInsert (t : TableSpec) :
    Db → List AttrMap → Except IntegrityError (Db × List (List Int))
  | db, [] => .ok (db, [])
  | db, attrs :: rest =>
    match rowIntegrityError t db attrs with
    | some e => .error e
    | none =>
      let p := dbInsertOne db attrs
      match executeBulkInsert t p.2 rest with
      | .ok (db2, returned) => .ok (db2, [p.1] :: returned)
      | .error e => .error e

/-! ## The insert primitive (`core/insert.py`) -/

/-- `flatten_ids`: `[id_[0] for id_ in returned_ids]` — the first component
of each fetched result row. -/
def flatten_ids (returned_ids : List (List Int)) : List Int :=
  returned_ids.map (fun r => r.headD 0)

/-- The error classification of `insert_`'s `except` clause:
`UniqueViolation` becomes `DuplicateInsertError`, `ForeignKeyViolation`
becomes `ForeignKeyError`, and any other integrity cause is re-raised as a
plain `RuntimeError`. -/
def classifyIntegrityError : IntegrityError → LoadError
  | .uniqueViolation => .duplicateInsertError
  | .foreignKeyViolation => .foreignKeyError
  | .otherIntegrityError => .runtimeError

/-- `insert_` from `core/insert.py`: execute the bulk insert, flatten the
fetched identifier rows on success, classify the integrity error on
failure. -/
def insert_ (t : TableSpec) (db : Db) (data : List AttrMap) :
    Except LoadError (Db × List Int) :=
  match executeBulkInsert t db data with
  | .ok (db2, returned_ids) => .ok (db2, flatten_ids returned_ids)
  | .error e => .error (classifyIntegrityError e)

/-! ## The `DatabaseLoader` class (`database_loader/database_loader.py`) -/

/-- One attribute filter of `DatabaseLoader.get_by`: the fetched row must
satisfy `getattr(model_class, k) == v` for every queried attribute
(attribute names that are not model columns are skipped in the source; the
embedding assumes the queried names are columns, which holds for the
attribute dictionaries the loader builds). -/
def matchesAttrs (q : AttrMap) (r : AttrMap) : Bool :=
  q.all (fun kv => r.lookup kv.1 == some kv.2)

/-- `DatabaseLoader.get_by`: fetch the first row whose columns agree with
every queried attribute (`fetchone` on the filtered select). -/
def get_by (db : Db) (attributes : AttrMap) : Option DbRow :=
  db.rows.find? (fun r => matchesAttrs attributes r.attrs)

/-- The `transactional=False` branch of `DatabaseLoader.insert_row`:
`insert_(conn, model_class, [data])[0]`. -/
def insert_row_notx (t : TableSpec) (db : Db) (data : AttrMap) :
    Except LoadError (Int × Db) :=
  match insert_ t db [data] with
  | .ok (db2, ids) => .ok (ids.headD 0, db2)
  | .error e => .error e

/-- `DatabaseLoader.insert_row`.  With `transactional=True` the source
wraps the same insert in `conn.begin_nested()` (a savepoint) and recurses
with `transactional=False`.  In this pure embedding a failed insert
returns the error with no new state, which is the savepoint semantics:
the failed statement's effect is rolled back and every previously
inserted row is kept. -/
def insert_row (t : TableSpec) (db : Db) (data : AttrMap) :
    Bool → Except LoadError (Int × Db)
  | false => insert_row_notx t db data
  | true => insert_row_notx t db data

/-- `DatabaseLoader.get_or_insert_row_if_not_exist`: for each `(local
primary key, attributes)` row of the prepared frame, fetch by the non-key
attributes and insert (with `transactional=False`) only when no matching
row exists; the returned key map records `local key → database id` in
processing order. -/
def get_or_insert_row_if_not_exist (t : TableSpec) :
    Db → List (Int × AttrMap) → Except LoadError (List (Int × Int) × Db)
  | db, [] => .ok ([], db)
  | db, row :: rest =>
    match get_by db row.2 with
    | some res =>
      match get_or_insert_row_if_not_exist t db rest with
      | .ok (key_map, db2) => .ok ((row.1, res.id) :: key_map, db2)
      | .error e => .error e
    | none =>
      match insert_row t db row.2 false with
      | .ok (new_id, dbn) =>
        match get_or_insert_row_if_not_exist t dbn rest with
        | .ok (key_map, db2) => .ok ((row.1, new_id) :: key_map, db2)
        | .error e => .error e
      | .error e => .error e

/-- The `transactional` argument of each `DatabaseLoader.insert_row` call
that `get_or_insert_row_if_not_exist` makes, in processing order (rows
whose `get_by` succeeds make no insert call).  The source passes the
literal `transactional=False` at its single call site. -/
def get_or_insert_insert_flags (t : TableSpec) :
    Db → List (Int × AttrMap) → List Bool
  | _, [] => []
  | db, row :: rest =>
    match get_by db row.2 with
    | some _ => get_or_insert_insert_flags t db rest
    | none =>
      match insert_row t db row.2 false with
      | .ok (_, db1) => false :: get_or_insert_insert_flags t db1 rest
      | .error _ => [false]

/-- `DatabaseLoader.bulk_load_target_rows` (after staging): bulk insert the
prepared rows and build the key map by zipping the staged local keys with
the returned identifiers (`dict(zip(..., strict=False))`, which pairs
positionally and stops at the shorter list). -/
def bulk_load_target_rows (t : TableSpec) (db : Db)
    (staged : List (Int × AttrMap)) :
    Except LoadError (List (Int × Int) × Db) :=
  match insert_ t db (staged.map Prod.snd) with
  | .ok (db2, inserted_ids) => .ok ((staged.map Prod.fst).zip inserted_ids, db2)
  | .error e => .error e

/-- The primary-key rewrite at the end of `DatabaseLoader.load`:
`pl.col(pk).map_elements(lambda x: self.foreign_keys_map.get(pk, {}).get(x, x))`.
Each output cell is modelled as an `Option Int` (a polars cell, which the
engine would set to null if the mapping produced `None`); this lambda
always yields `some` value. -/
def load_remap (foreign_keys_map : List (String × List (Int × Int)))
    (pk : String) (cells : List Int) : List (Option Int) :=
  cells.map (fun x => some ((((foreign_keys_map.lookup pk).getD []).lookup x).getD x))

/-- `DatabaseLoader.load` (after staging): try the bulk load; if it raises
`DuplicateInsertError`, fall back to the row-by-row
`get_or_insert_row_if_not_exist`; finally rewrite the frame's primary-key
column through `foreign_keys_map[pk]` (which both branches have just set
to their key map).  The staged rows and the frame's primary-key column are
parameters here; the staging itself (`prepare_data_for_insert`) is
analysed separately. -/
def load (t : TableSpec) (pk : String) (db : Db)
    (staged : List (Int × AttrMap)) (pkCells : List Int) :
    Except LoadError (List (Option Int) × List (Int × Int) × Db) :=
  match bulk_load_target_rows t db staged with
  | .ok (key_map, db2) =>
    .ok (load_remap [(pk, key_map)] pk pkCells, key_map, db2)
  | .error .duplicateInsertError =>
    match get_or_insert_row_if_not_exist t db staged with
    | .ok (key_map, db2) =>
      .ok (load_remap [(pk, key_map)] pk pkCells, key_map, db2)
    | .error e => .error e
  | .error e => .error e

/-- The `beam_id` rewrite of `bulk_insert_schedule_block`
(`meertrap/load.py`): `cand_df["beam_id"].map(dict)`.  pandas
`Series.map` with a dictionary sends every value absent from the
dictionary to NaN (a null cell), not to itself. -/
def series_map_dict (m : List (Int × Int)) (cells : List Int) :
    List (Option Int) :=
  cells.map (fun x => m.lookup x)

/-! ## The frame hierarchy (`target_handler/target_handler.py`)

A `TargetDataFrameHandler` wraps one polars frame and optionally
references a parent handler; each handler owns a clone of its frame, so
updates propagate only through the explicit recursive call in
`update_df_value`.  A frame is embedded column-major: a list of named
columns whose cells, for the key columns the handler rewrites, are
integers. -/

/-- One named frame column with its cells in row order. -/
structure Column where
  name : String
  cells : List Int
deriving DecidableEq, Repr

/-- A frame: its columns. -/
abbrev Frame := List Column

/-- The frame-local part of `update_df_value`:
`pl.when(pl.col(col) == initial_value).then(update_value).otherwise(pl.col(col)).alias(col)`
— every cell of column `col` equal to `initial_value` becomes
`update_value`, every other cell and column is kept. -/
def update_df_value_frame (col : String) (initial_value update_value : Int)
    (f : Frame) : Frame :=
  f.map (fun c =>
    if c.name = col then
      ⟨c.name, c.cells.map (fun v => if v = initial_value then update_value else v)⟩
    else c)

/-- A handler: its own frame, alone (`parent=None`) or with a parent
handler. -/
inductive Handler where
  | root (df : Frame)
  | child (df : Frame) (parent : Handler)
deriving DecidableEq, Repr

/-- The handler's own frame (`self.df`). -/
def Handler.df : Handler → Frame
  | .root f => f
  | .child f _ => f

/-- The handler's frame followed by every ancestor's frame. -/
def Handler.frames : Handler → List Frame
  | .root f => [f]
  | .child f p => f :: p.frames

/-- `TargetDataFrameHandler.update_df_value`: if the two values are equal,
return the frame unchanged (the source returns `self.df` before touching
anything, parent included); otherwise rewrite the handler's own frame and
recurse into the parent. -/
def update_df_value : Handler → String → Int → Int → Handler
  | .root f, col, a, b =>
    if a = b then .root f else .root (update_df_value_frame col a b f)
  | .child f p, col, a, b =>
    if a = b then .child f p
    else .child (update_df_value_frame col a b f) (update_df_value p col a b)

/-- The per-cell effect `update_df_value` is claimed to have: a cell of
column `col` equal to `a` becomes `b`; every other cell of every column is
kept. -/
def cellUpdate (col : String) (a b : Int) (c : Column) : Column :=
  ⟨c.name, c.cells.map (fun v => if c.name = col ∧ v = a then b else v)⟩

/-- The cells of column `pk` of a frame (`df[pk]`; an absent column reads
as empty here, while every use below concerns frames carrying the
column). -/
def Frame.colCells (pk : String) (f : Frame) : List Int :=
  match f.find? (fun c => c.name = pk) with
  | some c => c.cells
  | none => []

/-- `TargetDataFrameHandler.primary_keys` with no row argument:
`self.df[pk].unique().to_list()` — the distinct values of the handler's
primary-key column. -/
def primary_keys (pk : String) (h : Handler) : List Int :=
  (Frame.colCells pk h.df).dedup

/-- `series.max()` of an integer column (only ever taken on the non-empty
parent key column in the path under study). -/
def colMax : List Int → Int
  | [] => 0
  | x :: xs => xs.foldl max x

/-! ## The row-by-row fallback (`meertrap/load.py`) -/

/-- `DatabaseLoader.update_foreign_keys_map` (called by
`handler_insert_target`; the method itself is not defined under `src`).
Modelled from the spec: the identifier map records `initial_value →
update_value` pairs — "Record the resulting local→database mapping" on the
normal path and "update the IdentifierMap entry for that swapped value
accordingly" on the swap path — and the callers iterate it as a sequence
of `(initial, updated)` pairs. -/
def update_foreign_keys_map (key_map : List (Int × Int))
    (initial_value update_value : Int) : List (Int × Int) :=
  key_map ++ [(initial_value, update_value)]

/-- One `update_df_value` call made through a sub-handler, with the
sub-handler's own frame and its parent kept apart: the source updates
`self.df` and then recurses into the parent, so for `a ≠ b` the own frame
and the whole parent chain are rewritten, and for `a = b` nothing is. -/
def update_sub (col : String) (a b : Int) (sub : Frame) (parent : Handler) :
    Frame × Handler :=
  if a = b then (sub, parent)
  else (update_df_value_frame col a b sub, update_df_value parent col a b)

/-- The swap key `handler_insert_target` computes when the resolved
identifier collides with a batch key:
`max(db.count(target), handler.parent.df[pk].max()) + 1`. -/
def swap_key_of (db : Db) (pk : String) (parent : Handler) : Int :=
  max (Db.count db) (colMax (Frame.colCells pk parent.df)) + 1

/-- The key-resolution tail of one `handler_insert_target` iteration
(after `db_id` is known): if the database-resolved identifier already
occurs among the parent's primary keys and differs from the current row's
local key, first compute the swap key and rewrite every occurrence of
`db_id` to it (batch and identifier map); only then rewrite the current
row's local key to `db_id`. -/
def resolve_row_key (db : Db) (pk : String) (sub : Frame) (parent : Handler)
    (key_map : List (Int × Int)) (db_id local_primary_key : Int) :
    Frame × Handler × List (Int × Int) :=
  if db_id ∈ primary_keys pk parent ∧ db_id ≠ local_primary_key then
    ((update_sub pk local_primary_key db_id
        (update_sub pk db_id (swap_key_of db pk parent) sub parent).1
        (update_sub pk db_id (swap_key_of db pk parent) sub parent).2).1,
     (update_sub pk local_primary_key db_id
        (update_sub pk db_id (swap_key_of db pk parent) sub parent).1
        (update_sub pk db_id (swap_key_of db pk parent) sub parent).2).2,
     update_foreign_keys_map
       (update_foreign_keys_map key_map db_id (swap_key_of db pk parent))
       local_primary_key db_id)
  else
    ((update_sub pk local_primary_key db_id sub parent).1,
     (update_sub pk local_primary_key db_id sub parent).2,
     update_foreign_keys_map key_map local_primary_key db_id)

/-- One iteration of the `handler_insert_target` loop, for a prepared row
with attributes `attrs` (primary key already dropped) and local key
`local_primary_key`: attempt the insert under a savepoint
(`transactional=True`); on `DuplicateInsertError` or `ForeignKeyError`,
fetch the existing row by the attempted attributes — for `Observation`
rows with the derived `t_max` column dropped from the lookup — and fail
with the `RuntimeError` if none matches; finally resolve the row's key
(collision swap included).  A `RuntimeError` from the insert itself is not
caught by the `except` clause and propagates. -/
def handler_insert_row (t : TableSpec) (isObservation : Bool) (pk : String)
    (db : Db) (sub : Frame) (parent : Handler) (key_map : List (Int × Int))
    (attrs : AttrMap) (local_primary_key : Int) :
    Except LoadError (Db × Frame × Handler × List (Int × Int)) :=
  match insert_row t db attrs true with
  | .ok (db_id, db1) =>
    let r := resolve_row_key db1 pk sub parent key_map db_id local_primary_key
    .ok (db1, r.1, r.2.1, r.2.2)
  | .error .runtimeError => .error .runtimeError
  | .error _ =>
    let lookup_attrs :=
      if isObservation then attrs.filter (fun kv => kv.1 ≠ "t_max") else attrs
    match get_by db lookup_attrs with
    | none => .error .runtimeError
    | some db_row =>
      let r := resolve_row_key db pk sub parent key_map db_row.id local_primary_key
      .ok (db, r.1, r.2.1, r.2.2)

/-- The `handler_insert_target` loop over its prepared rows (each given as
attributes plus local primary key; in the source the rows are drawn from
the evolving handler frame, whose non-key attribute columns the loop never
rewrites). The first uncaught failure aborts the loop, so an aborted
target yields no key map and no state to commit. -/
def handler_insert_target (t : TableSpec) (isObservation : Bool) (pk : String) :
    Db → Frame → Handler → List (Int × Int) → List (AttrMap × Int) →
    Except LoadError (Db × Frame × Handler × List (Int × Int))
  | db, sub, parent, key_map, [] => .ok (db, sub, parent, key_map)
  | db, sub, parent, key_map, row :: rest =>
    match handler_insert_row t isObservation pk db sub parent key_map row.1 row.2 with
    | .ok (db1, sub1, parent1, m1) =>
      handler_insert_target t isObservation pk db1 sub1 parent1 m1 rest
    | .error e => .error e

/-! ## Staging (`DatabaseLoader.prepare_data_for_insert`)

The staging step is embedded row-major (the collapse acts on whole rows):
a frame is a column-name list plus one attribute row per frame row.  The
final step of the source, renaming the selected columns by deleting the
table-prefix occurrences from their names, does not bear on the claims
under study and is left out. -/

/-- A row-major frame for the staging step. -/
structure PrepFrame where
  cols : List String
  rows : List AttrMap
deriving DecidableEq, Repr

/-- The column metadata `prepare_data_for_insert` reads from its target:
table prefix (`target.table_prefix`, e.g. `"obs."`), frame primary-key
name (`target.primary_key`), and foreign-key names. -/
structure TargetCols where
  table_pfx : String
  primary_key : String
  foreign_keys : List String

/-- The column filter of `prepare_data_for_insert`:
`col.startswith(table_prefix) or col == primary_key or col in foreign_keys`
(the prefix test is taken on the columns' character lists). -/
def is_target_column (tc : TargetCols) (col : String) : Bool :=
  tc.table_pfx.data.isPrefixOf col.data || col == tc.primary_key ||
    tc.foreign_keys.contains col

/-- `df.select(columns)`: keep the matching columns (and, in each row, the
matching attributes). -/
def select_target_columns (tc : TargetCols) (df : PrepFrame) : PrepFrame :=
  ⟨df.cols.filter (fun c => is_target_column tc c),
   df.rows.map (fun r => r.filter (fun kv => is_target_column tc kv.1))⟩

/-- The collapse key of a staged row: its primary-key cell. -/
def rowKey (pk : String) (r : AttrMap) : Option Int :=
  r.lookup pk

/-- polars `df.unique(primary_key)` with its defaults `keep='any'` and
`maintain_order=False`: the engine keeps, for every distinct key value of
the input, exactly one input row carrying it — which one, and in which
order, is unspecified.  `output` ranges over the admissible results. -/
def UniqueAnyResult (pk : String) (input output : List AttrMap) : Prop :=
  (∀ r ∈ output, r ∈ input) ∧
  (output.map (rowKey pk)).Nodup ∧
  (∀ k ∈ input.map (rowKey pk), k ∈ output.map (rowKey pk)) ∧
  (∀ k ∈ output.map (rowKey pk), k ∈ input.map (rowKey pk))

/-- The keep-first collapse (`keep='first'` with `maintain_order=True`):
keep each row whose key has not been seen before it. -/
def unique_keep_first (pk : String) :
    List (Option Int) → List AttrMap → List AttrMap
  | _, [] => []
  | seen, r :: rs =>
    if rowKey pk r ∈ seen then unique_keep_first pk seen rs
    else r :: unique_keep_first pk (rowKey pk r :: seen) rs

/-! ## `TargetInformation.unique_constraint` (`core/target.py`) -/

/-- One record of `inspect(conn).get_unique_constraints(table)`: its
`"name"` entry (which `.get("name")` reads; absent reads as `None`). -/
structure UniqueConstraintRecord where
  name : Option String
deriving DecidableEq, Repr

/-- `TargetInformation.unique_constraint`: with `ucs` the reported unique
constraints, the source returns `None` when `len(ucs) > 0` and otherwise
evaluates `ucs[0].get("name")` — which, the remaining case being the empty
list, raises `IndexError`. -/
def unique_constraint (ucs : List UniqueConstraintRecord) :
    Except String (Option String) :=
  if ucs.length > 0 then .ok none
  else
    match ucs with
    | [] => .error "IndexError: list index out of range"
    | u :: _ => .ok u.name

/-! ## Helper lemmas on the frame hierarchy -/

theorem update_df_value_frame_eq_map (col : String) (a b : Int) (f : Frame) :
    update_df_value_frame col a b f = f.map (cellUpdate col a b) := by
  unfold update_df_value_frame
  refine List.map_congr_left (fun c _ => ?_)
  by_cases h : c.name = col
  · simp [cellUpdate, h]
  · simp [cellUpdate, h]

theorem update_df_value_frames (h : Handler) (col : String) (a b : Int)
    (hne : a ≠ b) :
    (update_df_value h col a b).frames =
      h.frames.map (update_df_value_frame col a b) := by
  induction h with
  | root f => simp [update_df_value, Handler.frames, hne]
  | child f p ih => simp [update_df_value, Handler.frames, hne, ih]

/-- C10: for every handler, `update_df_value(col, a, b)` with `a ≠ b` sets
to `b` exactly those cells of column `col` whose value equals `a`, in the
handler's own frame and in every ancestor's frame, keeping every other
cell and every other column; with `a = b` it returns the handler unchanged
and does not touch the parent. -/
theorem update_df_value_spec (h : Handler) (col : String) (a b : Int) :
    (a ≠ b →
      (update_df_value h col a b).frames =
        h.frames.map (fun f => f.map (cellUpdate col a b))) ∧
    (a = b → update_df_value h col a b = h) := by
  constructor
  · intro hne
    rw [update_df_value_frames h col a b hne]
    refine List.map_congr_left (fun f _ => ?_)
    exact update_df_value_frame_eq_map col a b f
  · intro heq
    subst heq
    induction h with
    | root f => simp [update_df_value]
    | child f p ih => simp [update_df_value]

/-- A concrete frame hierarchy: a filtered child over a two-column parent. -/
def hEx : Handler :=
  .child [⟨"beam_id", [1]⟩]
    (.root [⟨"beam_id", [1, 2, 1]⟩, ⟨"snr", [1, 5, 6]⟩])

/-- Witness for the C10 theorem at a concrete handler: rewriting
`beam_id=1` to `9` updates both occurrences in the parent and the one in
the child, and leaves the `snr` column (which also holds a `1`) alone. -/
theorem update_df_value_spec_witness :
    (update_df_value hEx "beam_id" 1 9).frames =
      [[⟨"beam_id", [9]⟩], [⟨"beam_id", [9, 2, 9]⟩, ⟨"snr", [1, 5, 6]⟩]] ∧
    update_df_value hEx "snr" 5 5 = hEx := by
  have h1 := (update_df_value_spec hEx "beam_id" 1 9).1 (by decide)
  have h2 := (update_df_value_spec hEx "snr" 5 5).2 rfl
  exact ⟨by rw [h1]; rfl, h2⟩

/-- C9: `TargetInformation.unique_constraint` returns `None` for every
table whose inspector reports at least one unique constraint, and for a
table reporting zero unique constraints it evaluates `ucs[0]` on the empty
list, raising `IndexError` instead of returning `None`. -/
theorem unique_constraint_spec (ucs : List UniqueConstraintRecord) :
    (0 < ucs.length → unique_constraint ucs = .ok none) ∧
    (ucs.length = 0 →
      unique_constraint ucs = .error "IndexError: list index out of range") := by
  constructor
  · intro h
    simp [unique_constraint, h]
  · intro h
    have he : ucs = [] := List.length_eq_zero.mp h
    subst he
    rfl

/-- Witness for the C9 theorem: a table with one reported unique
constraint gets `None` back (the constraint's name is unreachable), and a
table with none raises. -/
theorem unique_constraint_spec_witness :
    unique_constraint [⟨some "uq_obs"⟩] = .ok none ∧
    unique_constraint [] = .error "IndexError: list index out of range" :=
  ⟨(unique_constraint_spec [⟨some "uq_obs"⟩]).1 (by decide),
   (unique_constraint_spec []).2 rfl⟩

/-- C6 counterexample: the dependent-batch key rewrite of
`bulk_insert_schedule_block` (`meertrap/load.py` lines 55-57) is a pandas
`Series.map` with a plain dictionary, under which the value `2`, absent
from the identifier map `{1: 7}`, becomes NaN (null) instead of passing
through as `2`. -/
theorem series_map_dict_not_pass_through :
    series_map_dict [(1, 7)] [1, 2] = [some 7, none] ∧
    series_map_dict [(1, 7)] [1, 2] ≠ [some 7, some 2] := by
  constructor
  · decide
  · decide

/-- C6 amended: the primary-key rewrite performed by
`DatabaseLoader.load` computes `map.get(oldValue, oldValue)` cell by cell:
every value present in the identifier map is replaced by its database
identifier, every value absent from it passes through unchanged, and no
cell ever becomes null. -/
theorem load_remap_pass_through (fkm : List (String × List (Int × Int)))
    (pk : String) (cells : List Int) :
    List.Forall₂ (fun x y =>
      (((fkm.lookup pk).getD []).lookup x = none → y = some x) ∧
      (∀ z, ((fkm.lookup pk).getD []).lookup x = some z → y = some z))
      cells (load_remap fkm pk cells) ∧
    (∀ y ∈ load_remap fkm pk cells, y ≠ none) := by
  constructor
  · induction cells with
    | nil => simp [load_remap]
    | cons x xs ih =>
      refine List.Forall₂.cons ⟨fun hz => ?_, fun z hz => ?_⟩ ih
      · simp [hz]
      · simp [hz]
  · intro y hy
    simp only [load_remap, List.mem_map] at hy
    obtain ⟨x, _, hx⟩ := hy
    rw [← hx]
    simp

/-- Witness for the C6 amended theorem at the identifier map `{1: 7}`: the
mapped value is replaced, the unmapped one passes through, and no cell is
null. -/
theorem load_remap_pass_through_witness :
    load_remap [("beam_id", [(1, 7)])] "beam_id" [1, 2] = [some 7, some 2] ∧
    (∀ y ∈ load_remap [("beam_id", [(1, 7)])] "beam_id" [1, 2], y ≠ none) :=
  ⟨by decide, (load_remap_pass_through [("beam_id", [(1, 7)])] "beam_id" [1, 2]).2⟩

/-! ## Error classification and the fallback trigger -/

/-- C4: `insert_` raises `DuplicateInsertError` exactly when the engine
reported a unique-constraint violation, `ForeignKeyError` exactly when it
reported a foreign-key violation, and any other integrity failure as the
generic fatal `RuntimeError`; `DatabaseLoader.load` takes the row-by-row
insert-or-fetch path exactly when the bulk insert raised
`DuplicateInsertError` — on success it keeps the bulk result, and the
other two errors propagate without a retry. -/
theorem insert_error_classification (t : TableSpec) (pk : String) (db : Db)
    (staged : List (Int × AttrMap)) (pkCells : List Int) :
    (∀ data, insert_ t db data = .error .duplicateInsertError ↔
      executeBulkInsert t db data = .error .uniqueViolation) ∧
    (∀ data, insert_ t db data = .error .foreignKeyError ↔
      executeBulkInsert t db data = .error .foreignKeyViolation) ∧
    (∀ data, insert_ t db data = .error .runtimeError ↔
      executeBulkInsert t db data = .error .otherIntegrityError) ∧
    (insert_ t db (staged.map Prod.snd) = .error .duplicateInsertError →
      load t pk db staged pkCells =
        match get_or_insert_row_if_not_exist t db staged with
        | .ok (key_map, db2) =>
          .ok (load_remap [(pk, key_map)] pk pkCells, key_map, db2)
        | .error e => .error e) ∧
    (∀ db2 ids, insert_ t db (staged.map Prod.snd) = .ok (db2, ids) →
      load t pk db staged pkCells =
        .ok (load_remap [(pk, (staged.map Prod.fst).zip ids)] pk pkCells,
          (staged.map Prod.fst).zip ids, db2)) ∧
    (insert_ t db (staged.map Prod.snd) = .error .foreignKeyError →
      load t pk db staged pkCells = .error .foreignKeyError) ∧
    (insert_ t db (staged.map Prod.snd) = .error .runtimeError →
      load t pk db staged pkCells = .error .runtimeError) := by
  have hcls : ∀ data (l : LoadError) (e : IntegrityError),
      classifyIntegrityError e = l →
      (insert_ t db data = .error l ↔ executeBulkInsert t db data = .error e) := by
    intro data l e hle
    unfold insert_
    cases hE : executeBulkInsert t db data with
    | ok p => simp
    | error e' =>
      subst hle
      cases e' <;> cases e <;> simp [classifyIntegrityError]
  refine ⟨fun data => hcls data _ .uniqueViolation rfl,
    fun data => hcls data _ .foreignKeyViolation rfl,
    fun data => hcls data _ .otherIntegrityError rfl, ?_, ?_, ?_, ?_⟩
  · intro h
    have hb : bulk_load_target_rows t db staged = .error .duplicateInsertError := by
      simp [bulk_load_target_rows, h]
    cases hG : get_or_insert_row_if_not_exist t db staged with
    | ok p => simp [load, hb, hG]
    | error e => simp [load, hb, hG]
  · intro db2 ids h
    have hb : bulk_load_target_rows t db staged =
        .ok ((staged.map Prod.fst).zip ids, db2) := by
      simp [bulk_load_target_rows, h]
    simp [load, hb]
  · intro h
    have hb : bulk_load_target_rows t db staged = .error .foreignKeyError := by
      simp [bulk_load_target_rows, h]
    simp [load, hb]
  · intro h
    have hb : bulk_load_target_rows t db staged = .error .runtimeError := by
      simp [bulk_load_target_rows, h]
    simp [load, hb]

/-- The target-table constraint setup used by the concrete witnesses: the
declared unique constraint covers the single column `"name"`, and the
other engine checks pass. -/
def tEx : TableSpec :=
  ⟨["name"], fun _ => true, fun _ => true⟩

/-- A one-row table state: identifier `1`, `name=10`, `t_max=5`; the id
sequence stands at `2`. -/
def dbEx : Db :=
  ⟨[⟨1, [("name", 10), ("t_max", 5)]⟩], 2⟩

/-- Witness for the C4 theorem: inserting `name=10` into `dbEx` hits the
unique constraint, so `load` falls back to row-by-row insert-or-fetch,
which finds the existing row with identifier `1`; the key map sends the
staged local key `5` to `1` and the frame's key column `[5, 3]` is
rewritten to `[1, 3]`. -/
theorem insert_error_classification_witness :
    load tEx "observation_id" dbEx [(5, [("name", 10)])] [5, 3] =
      .ok ([some 1, some 3], [(5, 1)], dbEx) := by
  have h := (insert_error_classification tEx "observation_id" dbEx
    [(5, [("name", 10)])] [5, 3]).2.2.2.1 (by rfl)
  rw [h]
  rfl

/-! ## The fatal unexplained conflict and the savepoint row step -/

/-- C5: during the row-by-row fallback, when the insert attempt fails with
a unique-constraint or foreign-key violation and no database row matches
the attempted attributes — with the derived `t_max` column dropped from
the lookup for `Observation` rows — the row step raises the fatal
`RuntimeError`, and the whole target loop aborts with it, returning no key
map and no state to commit. -/
theorem handler_unexplained_conflict_fatal (t : TableSpec)
    (isObservation : Bool) (pk : String) (db : Db) (sub : Frame)
    (parent : Handler) (key_map : List (Int × Int)) (attrs : AttrMap)
    (local_primary_key : Int) (rest : List (AttrMap × Int))
    (hfail : insert_ t db [attrs] = .error .duplicateInsertError ∨
      insert_ t db [attrs] = .error .foreignKeyError)
    (hnone : get_by db
      (if isObservation then attrs.filter (fun kv => kv.1 ≠ "t_max")
       else attrs) = none) :
    handler_insert_row t isObservation pk db sub parent key_map attrs
      local_primary_key = .error .runtimeError ∧
    handler_insert_target t isObservation pk db sub parent key_map
      ((attrs, local_primary_key) :: rest) = .error .runtimeError := by
  simp only [ne_eq, decide_not] at hnone
  have hrow : handler_insert_row t isObservation pk db sub parent key_map
      attrs local_primary_key = .error .runtimeError := by
    rcases hfail with h | h <;>
      simp [handler_insert_row, insert_row, insert_row_notx, h, hnone]
  exact ⟨hrow, by simp [handler_insert_target, hrow]⟩

/-- Witness for the C5 theorem: inserting `name=10, other=3` into `dbEx`
violates the unique constraint on `name`, but no stored row carries
`other=3`, so the conflict is unexplained and the loop aborts. -/
theorem handler_unexplained_conflict_fatal_witness :
    handler_insert_target tEx false "observation_id" dbEx [] (.root [])
      [] [([("name", 10), ("other", 3)], 2)] = .error .runtimeError :=
  (handler_unexplained_conflict_fatal tEx false "observation_id" dbEx []
    (.root []) [] [("name", 10), ("other", 3)] 2 [] (Or.inl rfl) rfl).2

/-- C7 counterexample: the fallback path of `DatabaseLoader.load` does
not run its per-row inserts inside savepoints —
`get_or_insert_row_if_not_exist` makes its single insert call with the
literal `transactional=False`, so for a batch whose row is missing from
the table the one insert attempt carries the flag `false`. -/
theorem get_or_insert_not_transactional :
    get_or_insert_insert_flags tEx ⟨[], 1⟩ [(1, [("other", 42)])] = [false] ∧
    ¬ (∀ f ∈ get_or_insert_insert_flags tEx ⟨[], 1⟩ [(1, [("other", 42)])],
        f = true) := by
  constructor
  · decide
  · decide

/-- C7 amended: each insert attempt of the `handler_insert_target`
row-by-row path runs with `transactional=True`, i.e. inside its own
savepoint, so a row whose insert fails with a resolvable conflict leaves
the table state — previously reconciled rows included — exactly as it
was, gets its identifier from the fetched duplicate, and the loop carries
on with the remaining rows; but the fallback inside `DatabaseLoader.load`
(`get_or_insert_row_if_not_exist`) passes `transactional=False`, so its
inserts run in no per-row savepoint. -/
theorem handler_insert_row_savepoint (t : TableSpec) (isObservation : Bool)
    (pk : String) (db : Db) (sub : Frame) (parent : Handler)
    (key_map : List (Int × Int)) (attrs : AttrMap) (local_primary_key : Int)
    (rest : List (AttrMap × Int)) (db_row : DbRow)
    (hfail : insert_ t db [attrs] = .error .duplicateInsertError ∨
      insert_ t db [attrs] = .error .foreignKeyError)
    (hfound : get_by db
      (if isObservation then attrs.filter (fun kv => kv.1 ≠ "t_max")
       else attrs) = some db_row) :
    handler_insert_row t isObservation pk db sub parent key_map attrs
      local_primary_key =
      .ok (db,
        (resolve_row_key db pk sub parent key_map db_row.id local_primary_key).1,
        (resolve_row_key db pk sub parent key_map db_row.id local_primary_key).2.1,
        (resolve_row_key db pk sub parent key_map db_row.id local_primary_key).2.2) ∧
    handler_insert_target t isObservation pk db sub parent key_map
      ((attrs, local_primary_key) :: rest) =
      handler_insert_target t isObservation pk db
        (resolve_row_key db pk sub parent key_map db_row.id local_primary_key).1
        (resolve_row_key db pk sub parent key_map db_row.id local_primary_key).2.1
        (resolve_row_key db pk sub parent key_map db_row.id local_primary_key).2.2
        rest := by
  have hrow : handler_insert_row t isObservation pk db sub parent key_map
      attrs local_primary_key =
      .ok (db,
        (resolve_row_key db pk sub parent key_map db_row.id local_primary_key).1,
        (resolve_row_key db pk sub parent key_map db_row.id local_primary_key).2.1,
        (resolve_row_key db pk sub parent key_map db_row.id local_primary_key).2.2) := by
    simp only [ne_eq, decide_not] at hfound
    rcases hfail with h | h <;>
      simp [handler_insert_row, insert_row, insert_row_notx, h, hfound]
  exact ⟨hrow, by simp [handler_insert_target, hrow]⟩

/-- Witness for the C7 amended theorem: the `Observation`-style row
`name=10, t_max=9` conflicts with the stored `name=10, t_max=5` row;
with `t_max` dropped from the lookup the duplicate is found, the step
succeeds with the table state untouched, and the loop proceeds. -/
theorem handler_insert_row_savepoint_witness :
    handler_insert_row tEx true "observation_id" dbEx [] (.root [])
      [] [("name", 10), ("t_max", 9)] 2 =
      .ok (dbEx, [], .root [], [(2, 1)]) := by
  have h := (handler_insert_row_savepoint tEx true "observation_id" dbEx []
    (.root []) [] [("name", 10), ("t_max", 9)] 2 []
    ⟨1, [("name", 10), ("t_max", 5)]⟩ (Or.inl rfl) rfl).1
  rw [h]
  rfl

/-! ## Order preservation of the insert primitive -/

/-- `n` sequential values of the id sequence starting at `start`: the
identifiers a successful bulk insert hands out, in parameter order. -/
def idRange (start : Int) : Nat → List Int
  | 0 => []
  | n + 1 => start :: idRange (start + 1) n

theorem idRange_length (start : Int) (n : Nat) :
    (idRange start n).length = n := by
  induction n generalizing start with
  | zero => rfl
  | succ n ih => simp [idRange, ih]

theorem idRange_get (n : Nat) : ∀ (start : Int) (i : Nat)
    (hi : i < (idRange start n).length),
    (idRange start n)[i] = start + (i : Int) := by
  induction n with
  | zero => intro start i hi; simp [idRange] at hi
  | succ n ih =>
    intro start i hi
    cases i with
    | zero => simp [idRange]
    | succ i =>
      have h2 : i < (idRange (start + 1) n).length := by
        simpa [idRange] using hi
      have h3 := ih (start + 1) i h2
      simp only [idRange, List.getElem_cons_succ]
      rw [h3]
      push_cast
      ring

/-- The shape of a successful engine-level bulk insert: the fetched
identifiers are the sequence values starting at the table's `nextId`, in
parameter order, and the table grows by the parameter rows in parameter
order, the i-th new row carrying the i-th returned identifier. -/
theorem executeBulkInsert_ok (t : TableSpec) (data : List AttrMap) :
    ∀ (db db2 : Db) (returned : List (List Int)),
    executeBulkInsert t db data = .ok (db2, returned) →
    flatten_ids returned = idRange db.nextId data.length ∧
    db2.rows = db.rows ++ List.zipWith DbRow.mk (flatten_ids returned) data ∧
    db2.nextId = db.nextId + (data.length : Int) := by
  induction data with
  | nil =>
    intro db db2 returned h
    simp only [executeBulkInsert] at h
    cases h
    simp [flatten_ids, idRange]
  | cons a rest ih =>
    intro db db2 returned h
    simp only [executeBulkInsert] at h
    cases hE : rowIntegrityError t db a with
    | some e => rw [hE] at h; cases h
    | none =>
      rw [hE] at h
      cases hR : executeBulkInsert t (dbInsertOne db a).2 rest with
      | error e => rw [hR] at h; cases h
      | ok p =>
        obtain ⟨db', returned'⟩ := p
        rw [hR] at h
        simp only [Except.ok.injEq, Prod.mk.injEq] at h
        obtain ⟨hdb2, hret⟩ := h
        subst hdb2
        subst hret
        obtain ⟨ha, hb, hc⟩ := ih (dbInsertOne db a).2 db' returned' hR
        refine ⟨?_, ?_, ?_⟩
        · simp only [flatten_ids, List.map_cons, List.headD_cons] at ha ⊢
          rw [ha]
          simp [dbInsertOne, idRange]
        · rw [hb]
          simp only [flatten_ids, List.map_cons, List.headD_cons,
            List.zipWith_cons_cons] at *
          simp [dbInsertOne]
        · rw [hc]
          simp only [dbInsertOne, List.length_cons]
          push_cast
          ring

/-- C3: for every successful bulk insert, `insert_` returns one generated
identifier per input row, in input order — the identifier list has the
input's length, its i-th element is the i-th sequence value, and the rows
appended to the table pair the i-th identifier with the i-th input row —
and `bulk_load_target_rows` builds the identifier map by zipping the
staged local keys with that list, so the i-th staged local key is paired
with the i-th returned identifier. -/
theorem insert_order_preservation (t : TableSpec) (db db2 : Db)
    (staged : List (Int × AttrMap)) (ids : List Int)
    (hok : insert_ t db (staged.map Prod.snd) = .ok (db2, ids)) :
    ids.length = staged.length ∧
    (∀ i (hi : i < ids.length), ids[i] = db.nextId + (i : Int)) ∧
    db2.rows = db.rows ++ List.zipWith DbRow.mk ids (staged.map Prod.snd) ∧
    bulk_load_target_rows t db staged = .ok ((staged.map Prod.fst).zip ids, db2) ∧
    ((staged.map Prod.fst).zip ids).length = staged.length ∧
    (∀ i (h1 : i < (staged.map Prod.fst).length) (h2 : i < ids.length)
      (hi : i < ((staged.map Prod.fst).zip ids).length),
      ((staged.map Prod.fst).zip ids)[i] =
        ((staged.map Prod.fst)[i], ids[i])) := by
  have hids : ∃ returned, executeBulkInsert t db (staged.map Prod.snd) =
      .ok (db2, returned) ∧ ids = flatten_ids returned := by
    have hok2 := hok
    unfold insert_ at hok2
    cases hE : executeBulkInsert t db (staged.map Prod.snd) with
    | ok p =>
      obtain ⟨db', returned'⟩ := p
      rw [hE] at hok2
      simp only [Except.ok.injEq, Prod.mk.injEq] at hok2
      obtain ⟨h1, h2⟩ := hok2
      exact ⟨returned', by rw [h1], h2.symm⟩
    | error e => rw [hE] at hok2; cases hok2
  obtain ⟨returned, hE, hflat⟩ := hids
  subst hflat
  obtain ⟨ha, hb, _⟩ := executeBulkInsert_ok t (staged.map Prod.snd) db db2
    returned hE
  have hlen : (flatten_ids returned).length = staged.length := by
    rw [ha, idRange_length]
    simp
  refine ⟨hlen, ?_, hb, ?_, ?_, ?_⟩
  · intro i hi
    refine (List.getElem_of_eq ha hi).trans ?_
    simpa using idRange_get (staged.map Prod.snd).length db.nextId i
      (by rw [← ha]; exact hi)
  · simp [bulk_load_target_rows, hok]
  · rw [List.length_zip]
    simp [hlen]
  · intro i h1 h2 hi
    exact List.getElem_zip

/-- Witness for the C3 theorem: bulk-inserting two staged rows into the
empty table hands out identifiers `[1, 2]` in order and maps the staged
local keys `10, 20` to them positionally. -/
theorem insert_order_preservation_witness :
    bulk_load_target_rows tEx ⟨[], 1⟩ [(10, [("name", 1)]), (20, [("name", 2)])] =
      .ok ([(10, 1), (20, 2)],
        ⟨[⟨1, [("name", 1)]⟩, ⟨2, [("name", 2)]⟩], 3⟩) :=
  (insert_order_preservation tEx ⟨[], 1⟩
    ⟨[⟨1, [("name", 1)]⟩, ⟨2, [("name", 2)]⟩], 3⟩
    [(10, [("name", 1)]), (20, [("name", 2)])] [1, 2] (by rfl)).2.2.2.1

/-! ## Idempotence of the row-by-row load -/

theorem insert_row_false_ok (t : TableSpec) (db : Db) (attrs : AttrMap)
    (new_id : Int) (db1 : Db)
    (h : insert_row t db attrs false = .ok (new_id, db1)) :
    new_id = db.nextId ∧
    db1 = ⟨db.rows ++ [⟨db.nextId, attrs⟩], db.nextId + 1⟩ := by
  simp only [insert_row, insert_row_notx, insert_, executeBulkInsert] at h
  cases hRI : rowIntegrityError t db attrs with
  | some e => rw [hRI] at h; cases h
  | none =>
    rw [hRI] at h
    simp only [flatten_ids, dbInsertOne, List.map_cons, List.map_nil,
      List.headD_cons, Except.ok.injEq, Prod.mk.injEq] at h
    obtain ⟨h1, h2⟩ := h
    exact ⟨h1.symm, h2.symm⟩

theorem lookup_self (q : AttrMap) (hnd : (q.map Prod.fst).Nodup) :
    ∀ kv ∈ q, q.lookup kv.1 = some kv.2 := by
  induction q with
  | nil => simp
  | cons p q ih =>
    intro kv hkv
    simp only [List.map_cons, List.nodup_cons] at hnd
    obtain ⟨hp, hnd2⟩ := hnd
    obtain ⟨k, v⟩ := p
    rcases List.mem_cons.mp hkv with rfl | hkv2
    · simp [List.lookup_cons]
    · have hmem : kv.1 ∈ q.map Prod.fst := List.mem_map_of_mem Prod.fst hkv2
      have hne : kv.1 ≠ k := fun he => hp (he ▸ hmem)
      have hbeq : (kv.1 == k) = false := beq_eq_false_iff_ne.mpr hne
      rw [List.lookup_cons, hbeq]
      exact ih hnd2 kv hkv2

theorem matchesAttrs_self (q : AttrMap) (hnd : (q.map Prod.fst).Nodup) :
    matchesAttrs q q = true := by
  rw [matchesAttrs, List.all_eq_true]
  intro kv hkv
  rw [lookup_self q hnd kv hkv]
  exact beq_self_eq_true (some kv.2)

/-- A successful `get_or_insert_row_if_not_exist` run only ever appends
rows to the table. -/
theorem get_or_insert_extends (t : TableSpec) (rows : List (Int × AttrMap)) :
    ∀ (db : Db) (m : List (Int × Int)) (db1 : Db),
    get_or_insert_row_if_not_exist t db rows = .ok (m, db1) →
    ∃ ext, db1.rows = db.rows ++ ext := by
  induction rows with
  | nil =>
    intro db m db1 h
    simp only [get_or_insert_row_if_not_exist] at h
    cases h
    exact ⟨[], by simp⟩
  | cons row rest ih =>
    intro db m db1 h
    simp only [get_or_insert_row_if_not_exist] at h
    cases hg : get_by db row.2 with
    | some res =>
      rw [hg] at h
      cases hr : get_or_insert_row_if_not_exist t db rest with
      | ok p =>
        obtain ⟨km, db2⟩ := p
        simp only [hr, Except.ok.injEq, Prod.mk.injEq] at h
        obtain ⟨_, h2⟩ := h
        subst h2
        exact ih db km db2 hr
      | error e => simp [hr] at h
    | none =>
      rw [hg] at h
      cases hi : insert_row t db row.2 false with
      | ok q =>
        obtain ⟨nid, dbI⟩ := q
        cases hr : get_or_insert_row_if_not_exist t dbI rest with
        | ok p =>
          obtain ⟨km, db2⟩ := p
          simp only [hi, hr, Except.ok.injEq, Prod.mk.injEq] at h
          obtain ⟨_, h2⟩ := h
          subst h2
          obtain ⟨hn, hdbI⟩ := insert_row_false_ok t db row.2 nid dbI hi
          obtain ⟨ext, hext⟩ := ih dbI km db2 hr
          refine ⟨⟨db.nextId, row.2⟩ :: ext, ?_⟩
          rw [hext, hdbI]
          simp
        | error e => simp [hi, hr] at h
      | error e => simp [hi] at h

/-- C1: the row-by-row load is idempotent.  If a run of
`get_or_insert_row_if_not_exist` over a batch succeeds with key map `m1`
and table state `db1`, then running it again over the same batch against
`db1` succeeds, inserts no row (the table state is returned unchanged),
and returns the same key map — every local key maps to the identifier the
first run produced.  (Each row's attribute dictionary has distinct keys,
as `df.to_dicts()` guarantees.) -/
theorem get_or_insert_idempotent (t : TableSpec)
    (rows : List (Int × AttrMap)) :
    ∀ (db : Db) (m1 : List (Int × Int)) (db1 : Db),
    (∀ r ∈ rows, ((r.2.map Prod.fst).Nodup)) →
    get_or_insert_row_if_not_exist t db rows = .ok (m1, db1) →
    get_or_insert_row_if_not_exist t db1 rows = .ok (m1, db1) := by
  induction rows with
  | nil =>
    intro db m1 db1 _ h
    simp only [get_or_insert_row_if_not_exist] at h ⊢
    cases h
    rfl
  | cons row rest ih =>
    intro db m1 db1 hnd h
    have hndr : ∀ r ∈ rest, ((r.2.map Prod.fst).Nodup) :=
      fun r hr => hnd r (List.mem_cons_of_mem row hr)
    simp only [get_or_insert_row_if_not_exist] at h ⊢
    cases hg : get_by db row.2 with
    | some res =>
      rw [hg] at h
      cases hr : get_or_insert_row_if_not_exist t db rest with
      | ok p =>
        obtain ⟨km, db2⟩ := p
        simp only [hr, Except.ok.injEq, Prod.mk.injEq] at h
        obtain ⟨h1, h2⟩ := h
        subst h2
        obtain ⟨ext, hext⟩ := get_or_insert_extends t rest db km db2 hr
        have hg1 : get_by db2 row.2 = some res := by
          simp only [get_by] at hg ⊢
          rw [hext, List.find?_append, hg]
          rfl
        have hrec := ih db km db2 hndr hr
        simp only [hg1, hrec, h1]
      | error e => simp [hr] at h
    | none =>
      rw [hg] at h
      cases hi : insert_row t db row.2 false with
      | ok q =>
        obtain ⟨nid, dbI⟩ := q
        cases hr : get_or_insert_row_if_not_exist t dbI rest with
        | ok p =>
          obtain ⟨km, db2⟩ := p
          simp only [hi, hr, Except.ok.injEq, Prod.mk.injEq] at h
          obtain ⟨h1, h2⟩ := h
          subst h2
          obtain ⟨hn, hdbI⟩ := insert_row_false_ok t db row.2 nid dbI hi
          subst hn
          obtain ⟨ext, hext⟩ := get_or_insert_extends t rest dbI km db2 hr
          have hm : matchesAttrs row.2 row.2 = true :=
            matchesAttrs_self row.2 (hnd row (List.mem_cons_self row rest))
          have hg1 : get_by db2 row.2 = some ⟨db.nextId, row.2⟩ := by
            simp only [get_by] at hg ⊢
            rw [hext, hdbI]
            simp [List.find?_append, hg, List.find?_cons, hm]
          have hrec := ih dbI km db2 hndr hr
          simp only [hg1, hrec, h1]
        | error e => simp [hi, hr] at h
      | error e => simp [hi] at h

/-- Witness for the C1 theorem: loading the two-row batch into the empty
table inserts identifiers `1` and `2`; running the same batch again
against the resulting state returns the same key map and the table
unchanged. -/
theorem get_or_insert_idempotent_witness :
    get_or_insert_row_if_not_exist tEx
      ⟨[⟨1, [("name", 1)]⟩, ⟨2, [("name", 2)]⟩], 3⟩
      [(1, [("name", 1)]), (2, [("name", 2)])] =
      .ok ([(1, 1), (2, 2)], ⟨[⟨1, [("name", 1)]⟩, ⟨2, [("name", 2)]⟩], 3⟩) :=
  get_or_insert_idempotent tEx [(1, [("name", 1)]), (2, [("name", 2)])]
    ⟨[], 1⟩ [(1, 1), (2, 2)] ⟨[⟨1, [("name", 1)]⟩, ⟨2, [("name", 2)]⟩], 3⟩
    (by decide) (by rfl)

/-! ## The collision swap -/

theorem foldl_max_ge_init (l : List Int) : ∀ (a : Int), a ≤ l.foldl max a := by
  induction l with
  | nil => intro a; simp
  | cons x xs ih =>
    intro a
    calc a ≤ max a x := le_max_left a x
      _ ≤ xs.foldl max (max a x) := ih (max a x)

theorem foldl_max_ge_mem (l : List Int) : ∀ (a x : Int), x ∈ l → x ≤ l.foldl max a := by
  induction l with
  | nil => intro a x hx; cases hx
  | cons y ys ih =>
    intro a x hx
    rcases List.mem_cons.mp hx with rfl | hx2
    · calc x ≤ max a x := le_max_right a x
        _ ≤ ys.foldl max (max a x) := foldl_max_ge_init ys (max a x)
    · exact ih (max a y) x hx2

theorem colMax_ge (l : List Int) (x : Int) (hx : x ∈ l) : x ≤ colMax l := by
  cases l with
  | nil => cases hx
  | cons y ys =>
    rcases List.mem_cons.mp hx with rfl | h
    · exact foldl_max_ge_init ys x
    · exact foldl_max_ge_mem ys y x h

/-- The net effect of the collision swap on one key cell: `db_id` becomes
the fresh `s`, the current row's `local_pk` becomes `db_id`, everything
else is kept. -/
def swapCell (s db_id local_pk : Int) (v : Int) : Int :=
  if v = db_id then s else if v = local_pk then db_id else v

/-- `swapCell` applied to the `pk` column of a frame. -/
def swapFrame (pk : String) (s db_id local_pk : Int) (fr : Frame) : Frame :=
  fr.map (fun c =>
    if c.name = pk then ⟨c.name, c.cells.map (swapCell s db_id local_pk)⟩ else c)

/-- Apply one frame transformation at every level of a handler chain. -/
def Handler.mapFrames (g : Frame → Frame) : Handler → Handler
  | .root f => .root (g f)
  | .child f p => .child (g f) (p.mapFrames g)

theorem update_df_value_mapFrames (h : Handler) (col : String) (a b : Int)
    (hne : a ≠ b) :
    update_df_value h col a b = h.mapFrames (update_df_value_frame col a b) := by
  induction h with
  | root f => simp [update_df_value, Handler.mapFrames, hne]
  | child f p ih => simp [update_df_value, Handler.mapFrames, hne, ih]

theorem mapFrames_comp (g1 g2 : Frame → Frame) (h : Handler) :
    (h.mapFrames g1).mapFrames g2 = h.mapFrames (fun fr => g2 (g1 fr)) := by
  induction h with
  | root f => simp [Handler.mapFrames]
  | child f p ih => simp [Handler.mapFrames, ih]

theorem update_df_value_frame_comp (pk : String) (a1 b1 a2 b2 : Int)
    (fr : Frame) :
    update_df_value_frame pk a2 b2 (update_df_value_frame pk a1 b1 fr) =
    fr.map (fun c =>
      if c.name = pk then
        ⟨c.name, c.cells.map (fun v =>
          if (if v = a1 then b1 else v) = a2 then b2
          else (if v = a1 then b1 else v))⟩
      else c) := by
  unfold update_df_value_frame
  rw [List.map_map]
  refine List.map_congr_left (fun c _ => ?_)
  by_cases hc : c.name = pk
  · simp [Function.comp, hc, List.map_map]
  · simp [Function.comp, hc]

theorem cell_comp_swap (s db_id local_pk : Int) (hsl : s ≠ local_pk)
    (hne : db_id ≠ local_pk) (v : Int) :
    (if (if v = db_id then s else v) = local_pk then db_id
     else (if v = db_id then s else v)) = swapCell s db_id local_pk v := by
  unfold swapCell
  by_cases h1 : v = db_id
  · simp [h1, hsl, hne]
  · by_cases h2 : v = local_pk
    · simp [h1, h2, Ne.symm hne]
    · simp [h1, h2]

theorem swapFrame_eq (pk : String) (s db_id local_pk : Int)
    (hsl : s ≠ local_pk) (hne : db_id ≠ local_pk) (fr : Frame) :
    update_df_value_frame pk local_pk db_id
      (update_df_value_frame pk db_id s fr) =
    swapFrame pk s db_id local_pk fr := by
  rw [update_df_value_frame_comp]
  unfold swapFrame
  refine List.map_congr_left (fun c _ => ?_)
  by_cases hc : c.name = pk
  · simp only [hc, if_pos]
    refine congrArg (Column.mk pk) ?_
    exact List.map_congr_left (fun v _ => cell_comp_swap s db_id local_pk hsl hne v)
  · simp [hc]

/-- C2: when the database-resolved identifier `db_id` already occurs as a
local key in the parent batch and differs from the current row's local
key, `resolve_row_key` computes `swap_key = max(count of table rows,
maximum batch key) + 1`, rewrites every occurrence of `db_id` — in the
sub-frame, in the parent chain, and in the identifier map — to
`swap_key`, and only then rewrites the current row's local key to
`db_id`; the swap key is fresh for the batch, the two rows end up on the
distinct keys `swap_key` and `db_id`, and distinct batch keys stay
distinct under the rewrite. -/
theorem collision_swap_spec (db : Db) (pk : String) (sub : Frame)
    (parent : Handler) (key_map : List (Int × Int)) (db_id local_primary_key : Int)
    (hmem : db_id ∈ Frame.colCells pk parent.df)
    (hloc : local_primary_key ∈ Frame.colCells pk parent.df)
    (hne : db_id ≠ local_primary_key) :
    resolve_row_key db pk sub parent key_map db_id local_primary_key =
      (swapFrame pk (swap_key_of db pk parent) db_id local_primary_key sub,
       parent.mapFrames
         (swapFrame pk (swap_key_of db pk parent) db_id local_primary_key),
       key_map ++ [(db_id, swap_key_of db pk parent), (local_primary_key, db_id)]) ∧
    swapCell (swap_key_of db pk parent) db_id local_primary_key db_id =
      swap_key_of db pk parent ∧
    swapCell (swap_key_of db pk parent) db_id local_primary_key
      local_primary_key = db_id ∧
    swap_key_of db pk parent ≠ db_id ∧
    swap_key_of db pk parent ∉ Frame.colCells pk parent.df ∧
    (∀ x ∈ Frame.colCells pk parent.df, ∀ y ∈ Frame.colCells pk parent.df,
      swapCell (swap_key_of db pk parent) db_id local_primary_key x =
        swapCell (swap_key_of db pk parent) db_id local_primary_key y →
      x = y) := by
  have hMs : colMax (Frame.colCells pk parent.df) < swap_key_of db pk parent := by
    have := le_max_right (Db.count db) (colMax (Frame.colCells pk parent.df))
    unfold swap_key_of
    omega
  have hds : db_id < swap_key_of db pk parent :=
    lt_of_le_of_lt (colMax_ge _ _ hmem) hMs
  have hls : local_primary_key < swap_key_of db pk parent :=
    lt_of_le_of_lt (colMax_ge _ _ hloc) hMs
  have hsl : swap_key_of db pk parent ≠ local_primary_key := by omega
  have hsd : swap_key_of db pk parent ≠ db_id := by omega
  have hcond : db_id ∈ primary_keys pk parent ∧ db_id ≠ local_primary_key :=
    ⟨List.mem_dedup.mpr hmem, hne⟩
  have hlocne : local_primary_key ≠ db_id := Ne.symm hne
  have hu1 : update_sub pk db_id (swap_key_of db pk parent) sub parent =
      (update_df_value_frame pk db_id (swap_key_of db pk parent) sub,
       update_df_value parent pk db_id (swap_key_of db pk parent)) := by
    unfold update_sub
    rw [if_neg (by omega)]
  have hu2 : ∀ (sb : Frame) (pr : Handler),
      update_sub pk local_primary_key db_id sb pr =
      (update_df_value_frame pk local_primary_key db_id sb,
       update_df_value pr pk local_primary_key db_id) := by
    intro sb pr
    unfold update_sub
    rw [if_neg hlocne]
  have hA : update_df_value_frame pk local_primary_key db_id
      (update_df_value_frame pk db_id (swap_key_of db pk parent) sub) =
      swapFrame pk (swap_key_of db pk parent) db_id local_primary_key sub :=
    swapFrame_eq pk _ db_id local_primary_key hsl hne sub
  have hB : update_df_value
      (update_df_value parent pk db_id (swap_key_of db pk parent))
      pk local_primary_key db_id =
      parent.mapFrames
        (swapFrame pk (swap_key_of db pk parent) db_id local_primary_key) := by
    rw [update_df_value_mapFrames parent pk db_id (swap_key_of db pk parent)
      (by omega)]
    rw [update_df_value_mapFrames _ pk local_primary_key db_id hlocne]
    rw [mapFrames_comp]
    exact congrArg (fun g => Handler.mapFrames g parent)
      (funext (fun fr => swapFrame_eq pk _ db_id local_primary_key hsl hne fr))
  have hC : update_foreign_keys_map
      (update_foreign_keys_map key_map db_id (swap_key_of db pk parent))
      local_primary_key db_id =
      key_map ++ [(db_id, swap_key_of db pk parent), (local_primary_key, db_id)] := by
    simp [update_foreign_keys_map]
  have hmain : resolve_row_key db pk sub parent key_map db_id local_primary_key =
      (swapFrame pk (swap_key_of db pk parent) db_id local_primary_key sub,
       parent.mapFrames
         (swapFrame pk (swap_key_of db pk parent) db_id local_primary_key),
       key_map ++ [(db_id, swap_key_of db pk parent), (local_primary_key, db_id)]) := by
    unfold resolve_row_key
    rw [if_pos hcond, hu1]
    dsimp only
    rw [hu2]
    dsimp only
    rw [hA, hB, hC]
  refine ⟨hmain, by simp [swapCell], by simp [swapCell, hlocne], hsd, ?_, ?_⟩
  · intro hmem2
    have := colMax_ge _ _ hmem2
    omega
  · intro x hx y hy hxy
    have hxM := colMax_ge _ _ hx
    have hyM := colMax_ge _ _ hy
    simp only [swapCell] at hxy
    split_ifs at hxy <;> omega

/-- Witness for the C2 theorem: batch keys `[1, 2, 7]`, current row's
local key `2`, database-resolved identifier `7` (already a batch key),
empty table (`count = 0`): the swap key is `8`, the batch becomes
`[1, 7, 8]`, the sub-frame `[2]` becomes `[7]`, and the identifier map
records the swap before the rewrite. -/
theorem collision_swap_spec_witness :
    resolve_row_key ⟨[], 1⟩ "beam_id" [⟨"beam_id", [2]⟩]
      (.root [⟨"beam_id", [1, 2, 7]⟩]) [] 7 2 =
      ([⟨"beam_id", [7]⟩], .root [⟨"beam_id", [1, 7, 8]⟩], [(7, 8), (2, 7)]) := by
  have h := (collision_swap_spec ⟨[], 1⟩ "beam_id" [⟨"beam_id", [2]⟩]
    (.root [⟨"beam_id", [1, 2, 7]⟩]) [] 7 2 (by decide) (by decide)
    (by decide)).1
  rw [h]
  rfl

/-! ## Staging: column selection and the duplicate collapse -/

theorem unique_keep_first_subset (pk : String) :
    ∀ (l : List AttrMap) (seen : List (Option Int)) (r : AttrMap),
    r ∈ unique_keep_first pk seen l → r ∈ l := by
  intro l
  induction l with
  | nil => intro seen r h; simp [unique_keep_first] at h
  | cons x xs ih =>
    intro seen r h
    simp only [unique_keep_first] at h
    by_cases hx : rowKey pk x ∈ seen
    · rw [if_pos hx] at h
      exact List.mem_cons_of_mem x (ih seen r h)
    · rw [if_neg hx] at h
      rcases List.mem_cons.mp h with rfl | h2
      · exact List.mem_cons_self r xs
      · exact List.mem_cons_of_mem x (ih _ r h2)

theorem unique_keep_first_keys (pk : String) :
    ∀ (l : List AttrMap) (seen : List (Option Int)) (k : Option Int),
    k ∈ (unique_keep_first pk seen l).map (rowKey pk) →
    k ∉ seen ∧ k ∈ l.map (rowKey pk) := by
  intro l
  induction l with
  | nil => intro seen k h; simp [unique_keep_first] at h
  | cons x xs ih =>
    intro seen k h
    simp only [unique_keep_first] at h
    by_cases hx : rowKey pk x ∈ seen
    · rw [if_pos hx] at h
      obtain ⟨h1, h2⟩ := ih seen k h
      exact ⟨h1, by simp [h2]⟩
    · rw [if_neg hx] at h
      simp only [List.map_cons, List.mem_cons] at h
      rcases h with rfl | h2
      · exact ⟨hx, by simp⟩
      · obtain ⟨h1, h3⟩ := ih _ k h2
        exact ⟨fun hk => h1 (List.mem_cons_of_mem _ hk), by simp [h3]⟩

theorem unique_keep_first_nodup (pk : String) :
    ∀ (l : List AttrMap) (seen : List (Option Int)),
    ((unique_keep_first pk seen l).map (rowKey pk)).Nodup := by
  intro l
  induction l with
  | nil => intro seen; simp [unique_keep_first]
  | cons x xs ih =>
    intro seen
    simp only [unique_keep_first]
    by_cases hx : rowKey pk x ∈ seen
    · rw [if_pos hx]; exact ih seen
    · rw [if_neg hx]
      simp only [List.map_cons, List.nodup_cons]
      refine ⟨fun hk => ?_, ih _⟩
      obtain ⟨h1, _⟩ := unique_keep_first_keys pk xs (rowKey pk x :: seen) _ hk
      exact h1 (List.mem_cons_self _ _)

theorem unique_keep_first_complete (pk : String) :
    ∀ (l : List AttrMap) (seen : List (Option Int)) (k : Option Int),
    k ∈ l.map (rowKey pk) → k ∉ seen →
    k ∈ (unique_keep_first pk seen l).map (rowKey pk) := by
  intro l
  induction l with
  | nil => intro seen k h _; simp at h
  | cons x xs ih =>
    intro seen k h hns
    simp only [List.map_cons, List.mem_cons] at h
    simp only [unique_keep_first]
    by_cases hx : rowKey pk x ∈ seen
    · rw [if_pos hx]
      rcases h with rfl | h2
      · exact absurd hx hns
      · exact ih seen k h2 hns
    · rw [if_neg hx]
      simp only [List.map_cons, List.mem_cons]
      rcases h with rfl | h2
      · exact Or.inl rfl
      · by_cases hkx : k = rowKey pk x
        · exact Or.inl hkx
        · refine Or.inr (ih _ k h2 ?_)
          intro hk
          rcases List.mem_cons.mp hk with h3 | h3
          · exact hkx h3
          · exact hns h3

/-- C8 counterexample: `prepare_data_for_insert` collapses duplicates with
`df.unique(primary_key)` under polars' default `keep='any'`.  For the
batch of two rows sharing the local key `1`, the result keeping the
second row is an admissible outcome of that call and differs from the
keep-first collapse — the code does not guarantee that the first
occurrence in batch order is the one kept. -/
theorem unique_any_not_keep_first :
    UniqueAnyResult "beam_id"
      [[("beam_id", 1), ("beam.snr", 10)], [("beam_id", 1), ("beam.snr", 20)]]
      [[("beam_id", 1), ("beam.snr", 20)]] ∧
    [[("beam_id", 1), ("beam.snr", 20)]] ≠
      unique_keep_first "beam_id" []
        [[("beam_id", 1), ("beam.snr", 10)], [("beam_id", 1), ("beam.snr", 20)]] := by
  constructor
  · refine ⟨?_, ?_, ?_, ?_⟩ <;> decide
  · decide

/-- C8 amended: `prepare_data_for_insert` selects exactly the columns that
start with the target's table prefix, equal its primary key, or belong to
its foreign keys; the collapse keeps exactly one row per distinct local
key value, each drawn from the staged batch and covering every key of the
batch — but which occurrence survives is unspecified (`keep='any'`), with
the keep-first collapse one admissible outcome among others. -/
theorem prepare_data_spec (tc : TargetCols) (df : PrepFrame) :
    (∀ c, c ∈ (select_target_columns tc df).cols ↔
      (c ∈ df.cols ∧ (tc.table_pfx.data.isPrefixOf c.data = true ∨
        c = tc.primary_key ∨ c ∈ tc.foreign_keys))) ∧
    (∀ out, UniqueAnyResult tc.primary_key (select_target_columns tc df).rows out →
      ((out.map (rowKey tc.primary_key)).Nodup ∧
       (∀ r ∈ out, r ∈ (select_target_columns tc df).rows) ∧
       (∀ k, k ∈ out.map (rowKey tc.primary_key) ↔
         k ∈ (select_target_columns tc df).rows.map (rowKey tc.primary_key)))) ∧
    UniqueAnyResult tc.primary_key (select_target_columns tc df).rows
      (unique_keep_first tc.primary_key [] (select_target_columns tc df).rows) := by
  refine ⟨?_, ?_, ?_⟩
  · intro c
    simp [select_target_columns, List.mem_filter, is_target_column, or_assoc]
  · intro out h
    obtain ⟨h1, h2, h3, h4⟩ := h
    exact ⟨h2, h1, fun k => ⟨fun hk => h4 k hk, fun hk => h3 k hk⟩⟩
  · exact ⟨fun r hr => unique_keep_first_subset _ _ _ r hr,
      unique_keep_first_nodup _ _ _,
      fun k hk => unique_keep_first_complete _ _ _ k hk (by simp),
      fun k hk => (unique_keep_first_keys _ _ _ k hk).2⟩

/-- The target column metadata of the witness: `beam` table, prefix
`"beam."`, frame primary key `beam_id`, one foreign key. -/
def tcEx : TargetCols :=
  ⟨"beam.", "beam_id", ["observation_id"]⟩

/-- A one-row staged frame carrying one column of each selection kind plus
one unrelated column. -/
def dfEx : PrepFrame :=
  ⟨["beam.snr", "beam_id", "observation_id", "cand.dm"],
   [[("beam.snr", 10), ("beam_id", 1), ("observation_id", 4), ("cand.dm", 3)]]⟩

/-- Witness for the C8 amended theorem: the primary-key column is
selected, the unrelated `cand.dm` column is not, and the keep-first
collapse of the staged rows is an admissible `unique` outcome. -/
theorem prepare_data_spec_witness :
    ("beam_id" ∈ (select_target_columns tcEx dfEx).cols ∧
     "cand.dm" ∉ (select_target_columns tcEx dfEx).cols) ∧
    UniqueAnyResult "beam_id" (select_target_columns tcEx dfEx).rows
      (unique_keep_first "beam_id" [] (select_target_columns tcEx dfEx).rows) := by
  refine ⟨⟨?_, ?_⟩, (prepare_data_spec tcEx dfEx).2.2⟩
  · exact ((prepare_data_spec tcEx dfEx).1 "beam_id").mpr
      ⟨by decide, Or.inr (Or.inl rfl)⟩
  · intro hc
    rcases ((prepare_data_spec tcEx dfEx).1 "cand.dm").mp hc with ⟨_, h | h | h⟩
    · exact absurd h (by decide)
    · exact absurd h (by decide)
    · exact absurd h (by decide)

end Maltopuft
